import Mathlib

/-
  Verification of the Linguava route guard (Next.js middleware) and the
  language-selection server actions, against the natural-language spec.

  The middleware (exported `middleware` function and its `config.matcher`)
  and the server actions `selectLanguage` / `updateLanguagePreferences`
  are shallowly embedded below: JS strings become Lean `String`s (prefix
  tests are done on their character lists), URLSearchParams becomes an
  association list, the Supabase `user_languages` table becomes a list of
  records, and the `try`/`catch` exception channel becomes `Except`.
-/

namespace Linguava

/-- Character-list prefix test: the shallow embedding of
JavaScript `String.prototype.startsWith`. -/
def chIsPrefix : List Char → List Char → Bool
  | [], _ => true
  | _ :: _, [] => false
  | c :: cs, d :: ds => c == d && chIsPrefix cs ds

/-- JS `s.startsWith(p)`. -/
def jsStartsWith (s p : String) : Bool :=
  chIsPrefix p.toList s.toList

/-- Suffix test on character lists (used for the matcher regex
alternatives of the form `.*\.ext$`). -/
def chEndsWith (s e : List Char) : Bool :=
  chIsPrefix e.reverse s.reverse

/-- URL query parameters, in order: the embedding of `URLSearchParams`. -/
abbrev Params := List (String × String)

/-- `URLSearchParams.has(k)`. -/
def paramsHas (ps : Params) (k : String) : Bool :=
  match ps with
  | [] => false
  | kv :: rest => kv.1 == k || paramsHas rest k

/-- `URLSearchParams.get(k)`: first value for the key, if any. -/
def paramsGet (ps : Params) (k : String) : Option String :=
  match ps with
  | [] => none
  | kv :: rest => if kv.1 == k then some kv.2 else paramsGet rest k

/-- `URLSearchParams.delete(k)`: removes every pair with the key. -/
def paramsDelete (ps : Params) (k : String) : Params :=
  match ps with
  | [] => []
  | kv :: rest =>
      if kv.1 == k then paramsDelete rest k else kv :: paramsDelete rest k

/-- `URLSearchParams.set(k, v)`: replaces the first pair with the key in
place, drops later duplicates, appends when absent. -/
def paramsSet (ps : Params) (k v : String) : Params :=
  match ps with
  | [] => [(k, v)]
  | kv :: rest =>
      if kv.1 == k then (k, v) :: paramsDelete rest k
      else kv :: paramsSet rest k v

/-- Outcome of `supabase.auth.getSession()` as destructured by the
middleware: a session, no session, or a returned error. -/
inductive SessionResult where
  | valid
  | absent
  | lookupError (reason : String)
deriving DecidableEq, Repr, BEq

/-- The middleware's decision: `NextResponse.next()` (continue) or
`NextResponse.redirect(url)` with the url's pathname and search params. -/
inductive Decision where
  | next
  | redirect (pathname : String) (search : Params)
deriving DecidableEq, Repr

/-- The decision logic of `middleware(req)` (src/components/language/
UserLanguages.jsx, the exported middleware), with the request's pathname,
query parameters and session-lookup outcome made explicit.  The sequence
of conditional early returns is translated clause by clause. -/
def middlewareDecide (path : String) (ps : Params) (s : SessionResult) : Decision :=
  let isAuthPage := jsStartsWith path "/login" || jsStartsWith path "/auth"
  let isProtectedRoute := jsStartsWith path "/dashboard"
  let session := match s with
    | SessionResult.valid => true
    | _ => false
  let gotError := match s with
    | SessionResult.lookupError _ => true
    | _ => false
  if gotError && !isAuthPage then
    Decision.redirect "/login" (paramsSet ps "error" "session_error")
  else if session && isAuthPage && !jsStartsWith path "/auth/callback" then
    Decision.redirect "/dashboard" ps
  else if !session && isProtectedRoute then
    Decision.redirect "/login" (paramsSet ps "redirectTo" path)
  else if session && paramsHas ps "redirectTo" then
    match paramsGet ps "redirectTo" with
    | some v =>
        if v != "" && jsStartsWith v "/" then
          Decision.redirect v (paramsDelete ps "redirectTo")
        else Decision.next
    | none => Decision.next
  else Decision.next

/-- The whole `middleware` body including its `try`/`catch`: the session
lookup may also throw (the `Except.error` channel); a thrown exception is
caught, logged, and the response falls through to `return res`
(continue).  Returns the decision and the log lines written. -/
def middlewareRun (path : String) (ps : Params)
    (lookup : Except String SessionResult) : Decision × List String :=
  match lookup with
  | Except.error e => (Decision.next, ["Unexpected middleware error: " ++ e])
  | Except.ok s =>
      let logs := match s with
        | SessionResult.lookupError r => ["Middleware auth error: " ++ r]
        | _ => []
      (middlewareDecide path ps s, logs)

/-! ## The specification's §4.1 rule list (spec-side definitions)

The spec re-architects the guard as an ordered rule list with
first-match-wins semantics; these definitions follow the spec's words so
that the code's decision function can be compared against them. -/

/-- §3 route classification: exactly one of AuthPage, ProtectedArea,
Other. -/
inductive RouteClass where
  | authPage
  | protectedArea
  | other
deriving DecidableEq, Repr, BEq

/-- Spec classification: a path starting with /login or /auth (except
exactly /auth/callback*) is AuthPage; a path starting with /dashboard is
ProtectedArea; otherwise Other. -/
def classify (path : String) : RouteClass :=
  if (jsStartsWith path "/login" || jsStartsWith path "/auth")
      && !jsStartsWith path "/auth/callback" then RouteClass.authPage
  else if jsStartsWith path "/dashboard" then RouteClass.protectedArea
  else RouteClass.other

/-- The guard's input triple. -/
structure GuardInput where
  path : String
  params : Params
  session : SessionResult

/-- One rule of the ordered list: a condition and the outcome produced
when the rule is the first whose condition holds. -/
structure GuardRule where
  cond : GuardInput → Bool
  outcome : GuardInput → Decision

/-- Top-to-bottom, first-match-wins evaluation of a rule list; Continue
when no rule applies. -/
def firstMatch : List GuardRule → GuardInput → Decision
  | [], _ => Decision.next
  | r :: rs, i => if r.cond i then r.outcome i else firstMatch rs i

/-- Whether the session lookup returned an error. -/
def isErrorResult : SessionResult → Bool
  | SessionResult.lookupError _ => true
  | _ => false

/-- Whether the session lookup returned a valid session. -/
def isValidResult : SessionResult → Bool
  | SessionResult.valid => true
  | _ => false

/-- Whether the session lookup found no session. -/
def isAbsentResult : SessionResult → Bool
  | SessionResult.absent => true
  | _ => false

/-- Whether a route class is AuthPage. -/
def isAuthClass : RouteClass → Bool
  | RouteClass.authPage => true
  | _ => false

/-- Whether a route class is ProtectedArea. -/
def isProtectedClass : RouteClass → Bool
  | RouteClass.protectedArea => true
  | _ => false

/-- Spec rule 1: on a lookup error, redirect to /login?error=session_error
unless the path classifies as AuthPage, in which case continue. -/
def errorRule : GuardRule where
  cond := fun i => isErrorResult i.session
  outcome := fun i =>
    if !(isAuthClass (classify i.path)) then
      Decision.redirect "/login" (paramsSet i.params "error" "session_error")
    else Decision.next

/-- Spec rule 2: a valid session on an AuthPage not under /auth/callback
redirects to /dashboard. -/
def validAuthRule : GuardRule where
  cond := fun i =>
    isValidResult i.session
      && isAuthClass (classify i.path)
      && !jsStartsWith i.path "/auth/callback"
  outcome := fun i => Decision.redirect "/dashboard" i.params

/-- Spec rule 3: an absent session on a ProtectedArea redirects to /login
with redirectTo set to the original path. -/
def absentProtectedRule : GuardRule where
  cond := fun i =>
    isAbsentResult i.session
      && isProtectedClass (classify i.path)
  outcome := fun i =>
    Decision.redirect "/login" (paramsSet i.params "redirectTo" i.path)

/-- Spec rule 4: a valid session with a redirectTo query value starting
with "/" redirects there, with redirectTo removed. -/
def continuationRule : GuardRule where
  cond := fun i =>
    isValidResult i.session
      && (match paramsGet i.params "redirectTo" with
          | some v => jsStartsWith v "/"
          | none => false)
  outcome := fun i =>
    match paramsGet i.params "redirectTo" with
    | some v => Decision.redirect v (paramsDelete i.params "redirectTo")
    | none => Decision.next

/-- The §4.1 decision algorithm: the four rules in order, Continue when
none applies. -/
def specDecision (i : GuardInput) : Decision :=
  firstMatch [errorRule, validAuthRule, absentProtectedRule, continuationRule] i

/-- The error rule as the code actually implements it: the AuthPage test
of the error branch is a plain "starts with /login or /auth", which does
not carve out /auth/callback*. -/
def errorRuleAmended : GuardRule where
  cond := fun i => isErrorResult i.session
  outcome := fun i =>
    if !(jsStartsWith i.path "/login" || jsStartsWith i.path "/auth") then
      Decision.redirect "/login" (paramsSet i.params "error" "session_error")
    else Decision.next

/-- The rule list amended to use the code's error-rule classification. -/
def specDecisionAmended (i : GuardInput) : Decision :=
  firstMatch [errorRuleAmended, validAuthRule, absentProtectedRule, continuationRule] i

/-! ## Helper lemmas about prefixes and query parameters -/

theorem chIsPrefix_trans : ∀ a b c : List Char,
    chIsPrefix a b = true → chIsPrefix b c = true → chIsPrefix a c = true := by
  intro a
  induction a with
  | nil => intro b c _ _; rfl
  | cons x xs ih =>
    intro b c hab hbc
    cases b with
    | nil => simp [chIsPrefix] at hab
    | cons y ys =>
      cases c with
      | nil => simp [chIsPrefix] at hbc
      | cons z zs =>
        simp [chIsPrefix] at hab hbc ⊢
        exact ⟨hab.1.trans hbc.1, ih ys zs hab.2 hbc.2⟩

theorem chIsPrefix_comparable : ∀ s p q : List Char,
    chIsPrefix p s = true → chIsPrefix q s = true →
    chIsPrefix p q = true ∨ chIsPrefix q p = true := by
  intro s
  induction s with
  | nil =>
    intro p q hp _
    cases p with
    | nil => left; rfl
    | cons x xs => simp [chIsPrefix] at hp
  | cons c cs ih =>
    intro p q hp hq
    cases p with
    | nil => left; rfl
    | cons x xs =>
      cases q with
      | nil => right; rfl
      | cons y ys =>
        simp [chIsPrefix] at hp hq ⊢
        rcases ih xs ys hp.2 hq.2 with h | h
        · left; exact ⟨hp.1.trans hq.1.symm, h⟩
        · right; exact ⟨hq.1.trans hp.1.symm, h⟩

/-- Two prefix literals that are not prefixes of one another cannot both
be prefixes of the same path. -/
theorem jsStartsWith_excl (s p q : String)
    (hpq : chIsPrefix p.toList q.toList = false)
    (hqp : chIsPrefix q.toList p.toList = false)
    (hp : jsStartsWith s p = true) : jsStartsWith s q = false := by
  cases hsw : jsStartsWith s q with
  | false => rfl
  | true =>
    rcases chIsPrefix_comparable s.toList p.toList q.toList hp hsw with h | h
    · rw [hpq] at h; exact absurd h (by simp)
    · rw [hqp] at h; exact absurd h (by simp)

theorem login_not_dashboard (s : String) (h : jsStartsWith s "/login" = true) :
    jsStartsWith s "/dashboard" = false :=
  jsStartsWith_excl s "/login" "/dashboard" (by decide) (by decide) h

theorem auth_not_dashboard (s : String) (h : jsStartsWith s "/auth" = true) :
    jsStartsWith s "/dashboard" = false :=
  jsStartsWith_excl s "/auth" "/dashboard" (by decide) (by decide) h

theorem dashboard_not_login (s : String) (h : jsStartsWith s "/dashboard" = true) :
    jsStartsWith s "/login" = false :=
  jsStartsWith_excl s "/dashboard" "/login" (by decide) (by decide) h

theorem dashboard_not_auth (s : String) (h : jsStartsWith s "/dashboard" = true) :
    jsStartsWith s "/auth" = false :=
  jsStartsWith_excl s "/dashboard" "/auth" (by decide) (by decide) h

/-- A path under /auth/callback is under /auth. -/
theorem callback_is_auth (s : String) (h : jsStartsWith s "/auth/callback" = true) :
    jsStartsWith s "/auth" = true :=
  chIsPrefix_trans _ _ _ (by decide) h

/-- A value starting with "/" is not the empty string. -/
theorem startsWithSlash_ne_empty (v : String) (h : jsStartsWith v "/" = true) :
    (v != "") = true := by
  by_cases hv : v = ""
  · subst hv; exact absurd h (by decide)
  · simp [bne_iff_ne, hv]

theorem paramsHas_eq_isSome (ps : Params) (k : String) :
    paramsHas ps k = (paramsGet ps k).isSome := by
  induction ps with
  | nil => rfl
  | cons kv rest ih =>
    by_cases h : kv.1 = k
    · simp [paramsHas, paramsGet, h]
    · simp [paramsHas, paramsGet, h, ih]

theorem paramsGet_delete_ne (ps : Params) (k k' : String) (h : k' ≠ k) :
    paramsGet (paramsDelete ps k) k' = paramsGet ps k' := by
  induction ps with
  | nil => rfl
  | cons kv rest ih =>
    by_cases h1 : kv.1 = k
    · have h2 : kv.1 ≠ k' := by rw [h1]; exact Ne.symm h
      simp [paramsDelete, paramsGet, h1, h2, ih, Ne.symm h]
    · by_cases h2 : kv.1 = k'
      · simp [paramsDelete, paramsGet, h1, h2, h]
      · simp [paramsDelete, paramsGet, h1, h2, ih]

theorem paramsGet_set_ne (ps : Params) (k v k' : String) (h : k' ≠ k) :
    paramsGet (paramsSet ps k v) k' = paramsGet ps k' := by
  induction ps with
  | nil => simp [paramsSet, paramsGet, Ne.symm h]
  | cons kv rest ih =>
    by_cases h1 : kv.1 = k
    · have h2 : kv.1 ≠ k' := by rw [h1]; exact Ne.symm h
      simp [paramsSet, paramsGet, h1, h2, Ne.symm h,
        paramsGet_delete_ne rest k k' h]
    · by_cases h2 : kv.1 = k'
      · simp [paramsSet, paramsGet, h1, h2, h]
      · simp [paramsSet, paramsGet, h1, h2, ih]


/-! ## Claim theorems for the guard decision logic -/

/-- Claim C1 counterexample: at path /auth/callback with a session-lookup
error, the code continues (its error branch treats /auth/callback as an
auth page) while the §4.1 rule list redirects to /login?error=session_error
(its classification puts /auth/callback outside AuthPage), so the guard's
decision does not equal the rule-list evaluation. -/
theorem spec_rule_list_counterexample :
    middlewareDecide "/auth/callback" [] (SessionResult.lookupError "network") ≠
      specDecision
        { path := "/auth/callback", params := [],
          session := SessionResult.lookupError "network" } := by
  decide

theorem isAuthClass_classify (path : String) :
    isAuthClass (classify path) =
      ((jsStartsWith path "/login" || jsStartsWith path "/auth")
        && !jsStartsWith path "/auth/callback") := by
  by_cases h1 : ((jsStartsWith path "/login" || jsStartsWith path "/auth")
      && !jsStartsWith path "/auth/callback") = true
  · simp [classify, h1, isAuthClass]
  · rw [Bool.not_eq_true] at h1
    by_cases h2 : jsStartsWith path "/dashboard" = true
    · simp [classify, h1, h2, isAuthClass]
    · rw [Bool.not_eq_true] at h2
      simp [classify, h1, h2, isAuthClass]

theorem isProtectedClass_classify (path : String) :
    isProtectedClass (classify path) =
      (!((jsStartsWith path "/login" || jsStartsWith path "/auth")
          && !jsStartsWith path "/auth/callback")
        && jsStartsWith path "/dashboard") := by
  by_cases h1 : ((jsStartsWith path "/login" || jsStartsWith path "/auth")
      && !jsStartsWith path "/auth/callback") = true
  · simp [classify, h1, isProtectedClass]
  · rw [Bool.not_eq_true] at h1
    by_cases h2 : jsStartsWith path "/dashboard" = true
    · simp [classify, h1, h2, isProtectedClass]
    · rw [Bool.not_eq_true] at h2
      simp [classify, h1, h2, isProtectedClass]

theorem guard_equals_amended_rule_list (path : String) (ps : Params) (s : SessionResult) :
    middlewareDecide path ps s =
      specDecisionAmended { path := path, params := ps, session := s } := by
  have hred := isAuthClass_classify path
  have hred2 := isProtectedClass_classify path
  cases s with
  | lookupError r =>
    cases hl : jsStartsWith path "/login" with
    | true =>
      have hd := login_not_dashboard path hl
      simp [middlewareDecide, specDecisionAmended, firstMatch, errorRuleAmended,
        validAuthRule, absentProtectedRule, continuationRule, hred, hred2,
        isErrorResult, isValidResult, isAbsentResult, hl, hd]
    | false =>
      cases ha : jsStartsWith path "/auth" with
      | true =>
        have hd := auth_not_dashboard path ha
        simp [middlewareDecide, specDecisionAmended, firstMatch, errorRuleAmended,
          validAuthRule, absentProtectedRule, continuationRule, hred, hred2,
          isErrorResult, isValidResult, isAbsentResult, hl, ha, hd]
      | false =>
        simp [middlewareDecide, specDecisionAmended, firstMatch, errorRuleAmended,
          validAuthRule, absentProtectedRule, continuationRule, hred, hred2,
          isErrorResult, isValidResult, isAbsentResult, hl, ha]
  | absent =>
    cases hd : jsStartsWith path "/dashboard" with
    | true =>
      have hl := dashboard_not_login path hd
      have ha := dashboard_not_auth path hd
      simp [middlewareDecide, specDecisionAmended, firstMatch, errorRuleAmended,
        validAuthRule, absentProtectedRule, continuationRule, hred, hred2,
        isErrorResult, isValidResult, isAbsentResult, hd, hl, ha]
    | false =>
      simp [middlewareDecide, specDecisionAmended, firstMatch, errorRuleAmended,
        validAuthRule, absentProtectedRule, continuationRule, hred, hred2,
        isErrorResult, isValidResult, isAbsentResult, hd]
  | valid =>
    cases hcb : jsStartsWith path "/auth/callback" with
    | true =>
      have ha := callback_is_auth path hcb
      have hd := auth_not_dashboard path ha
      cases hg : paramsGet ps "redirectTo" with
      | none =>
        simp [middlewareDecide, specDecisionAmended, firstMatch, errorRuleAmended,
          validAuthRule, absentProtectedRule, continuationRule, hred, hred2,
          isErrorResult, isValidResult, isAbsentResult, ha, hcb, hd, hg,
          paramsHas_eq_isSome]
      | some v =>
        cases hsv : jsStartsWith v "/" with
        | false =>
          simp [middlewareDecide, specDecisionAmended, firstMatch, errorRuleAmended,
            validAuthRule, absentProtectedRule, continuationRule, hred, hred2,
            isErrorResult, isValidResult, isAbsentResult, ha, hcb, hd, hg, hsv,
            paramsHas_eq_isSome]
        | true =>
          have hne := startsWithSlash_ne_empty v hsv
          simp [middlewareDecide, specDecisionAmended, firstMatch, errorRuleAmended,
            validAuthRule, absentProtectedRule, continuationRule, hred, hred2,
            isErrorResult, isValidResult, isAbsentResult, ha, hcb, hd, hg, hsv,
            hne, paramsHas_eq_isSome]
    | false =>
      cases hl : jsStartsWith path "/login" with
      | true =>
        simp [middlewareDecide, specDecisionAmended, firstMatch, errorRuleAmended,
          validAuthRule, absentProtectedRule, continuationRule, hred, hred2,
          isErrorResult, isValidResult, isAbsentResult, hl, hcb]
      | false =>
        cases ha : jsStartsWith path "/auth" with
        | true =>
          simp [middlewareDecide, specDecisionAmended, firstMatch, errorRuleAmended,
            validAuthRule, absentProtectedRule, continuationRule, hred, hred2,
            isErrorResult, isValidResult, isAbsentResult, hl, ha, hcb]
        | false =>
          cases hg : paramsGet ps "redirectTo" with
          | none =>
            simp [middlewareDecide, specDecisionAmended, firstMatch, errorRuleAmended,
              validAuthRule, absentProtectedRule, continuationRule, hred, hred2,
              isErrorResult, isValidResult, isAbsentResult, hl, ha, hcb, hg,
              paramsHas_eq_isSome]
          | some v =>
            cases hsv : jsStartsWith v "/" with
            | false =>
              simp [middlewareDecide, specDecisionAmended, firstMatch, errorRuleAmended,
                validAuthRule, absentProtectedRule, continuationRule, hred, hred2,
                isErrorResult, isValidResult, isAbsentResult, hl, ha, hcb, hg, hsv,
                paramsHas_eq_isSome]
            | true =>
              have hne := startsWithSlash_ne_empty v hsv
              simp [middlewareDecide, specDecisionAmended, firstMatch, errorRuleAmended,
                validAuthRule, absentProtectedRule, continuationRule, hred, hred2,
                isErrorResult, isValidResult, isAbsentResult, hl, ha, hcb, hg, hsv,
                hne, paramsHas_eq_isSome]

/-- Claim C2 counterexample: /auth/callback does not classify as AuthPage,
so the claim demands a redirect to /login?error=session_error on a lookup
error there, but the guard continues (its error branch uses the plain
prefix test for /login or /auth, which /auth/callback satisfies). -/
theorem error_redirect_counterexample :
    isAuthClass (classify "/auth/callback") = false ∧
    middlewareDecide "/auth/callback" [("code", "abc")]
        (SessionResult.lookupError "network") = Decision.next := by
  decide

/-- Claim C2 (amended): on a session-lookup error the guard redirects to
/login with error=session_error set in the carried-over query for every
path that does not start with /login or /auth, and continues for every
path that does start with /login or /auth (including /auth/callback*). -/
theorem guard_error_behaviour (path : String) (ps : Params) (r : String) :
    ((jsStartsWith path "/login" || jsStartsWith path "/auth") = false →
      middlewareDecide path ps (SessionResult.lookupError r) =
        Decision.redirect "/login" (paramsSet ps "error" "session_error")) ∧
    ((jsStartsWith path "/login" || jsStartsWith path "/auth") = true →
      middlewareDecide path ps (SessionResult.lookupError r) = Decision.next) := by
  constructor
  · intro h
    simp only [Bool.or_eq_false_iff] at h
    simp [middlewareDecide, h.1, h.2]
  · intro h
    simp only [Bool.or_eq_true] at h
    rcases h with h | h
    · have hd := login_not_dashboard path h
      simp [middlewareDecide, h, hd]
    · have hd := auth_not_dashboard path h
      simp [middlewareDecide, h, hd]

/-- Claim C2 witness: Error("network") on /dashboard with no query yields
Redirect("/login", error=session_error). -/
theorem guard_error_behaviour_witness :
    middlewareDecide "/dashboard" [] (SessionResult.lookupError "network") =
      Decision.redirect "/login" [("error", "session_error")] :=
  (guard_error_behaviour "/dashboard" [] "network").1 (by decide)

/-- Claim C3 counterexample: with a non-empty incoming query the redirect's
parameters are not exactly the single pair redirectTo=path — the incoming
parameters are carried over as well. -/
theorem protected_absent_counterexample :
    middlewareDecide "/dashboard" [("theme", "dark")] SessionResult.absent ≠
      Decision.redirect "/login" [("redirectTo", "/dashboard")] ∧
    middlewareDecide "/dashboard" [("theme", "dark")] SessionResult.absent =
      Decision.redirect "/login" [("theme", "dark"), ("redirectTo", "/dashboard")] := by
  decide

/-- Claim C3 (amended): for every path starting with /dashboard with an
absent session, the guard redirects to /login with the incoming query
carried over and redirectTo set to the original path (so exactly the
single pair redirectTo=path when the incoming query is empty). -/
theorem guard_protected_absent (path : String) (ps : Params)
    (h : jsStartsWith path "/dashboard" = true) :
    middlewareDecide path ps SessionResult.absent =
      Decision.redirect "/login" (paramsSet ps "redirectTo" path) := by
  simp [middlewareDecide, h]

/-- Claim C3 witness: /dashboard with an empty query and absent session
redirects to /login with exactly redirectTo=/dashboard. -/
theorem guard_protected_absent_witness :
    middlewareDecide "/dashboard" [] SessionResult.absent =
      Decision.redirect "/login" [("redirectTo", "/dashboard")] :=
  guard_protected_absent "/dashboard" [] (by decide)

/-- Claim C4 counterexample: with a non-empty incoming query the redirect
to /dashboard does not have an empty query-parameter map — the incoming
parameters are carried over unchanged. -/
theorem authpage_valid_counterexample :
    middlewareDecide "/login" [("theme", "dark")] SessionResult.valid ≠
      Decision.redirect "/dashboard" [] ∧
    middlewareDecide "/login" [("theme", "dark")] SessionResult.valid =
      Decision.redirect "/dashboard" [("theme", "dark")] := by
  decide

/-- Claim C4 (amended): for every path starting with /login or /auth and
not under /auth/callback, with a valid session, the guard redirects to
/dashboard with the incoming query carried over unchanged (so an empty
map exactly when the incoming query is empty). -/
theorem guard_authpage_valid (path : String) (ps : Params)
    (h : (jsStartsWith path "/login" || jsStartsWith path "/auth") = true)
    (hcb : jsStartsWith path "/auth/callback" = false) :
    middlewareDecide path ps SessionResult.valid =
      Decision.redirect "/dashboard" ps := by
  simp only [Bool.or_eq_true] at h
  rcases h with h | h
  · simp [middlewareDecide, h, hcb]
  · simp [middlewareDecide, h, hcb]

/-- Claim C4 witness: /login with an empty query and a valid session
redirects to /dashboard with an empty query. -/
theorem guard_authpage_valid_witness :
    middlewareDecide "/login" [] SessionResult.valid =
      Decision.redirect "/dashboard" [] :=
  guard_authpage_valid "/login" [] (by decide) (by decide)

/-- Claim C5: with a valid session and no earlier rule applying, a
redirectTo query value starting with "/" produces a redirect to that value
with redirectTo removed from the query; a value not starting with "/"
produces Continue, so the guard never redirects off-site. -/
theorem guard_redirect_continuation (path : String) (ps : Params) (v : String)
    (hnr : ((jsStartsWith path "/login" || jsStartsWith path "/auth")
        && !jsStartsWith path "/auth/callback") = false)
    (hv : paramsGet ps "redirectTo" = some v) :
    (jsStartsWith v "/" = true →
      middlewareDecide path ps SessionResult.valid =
        Decision.redirect v (paramsDelete ps "redirectTo")) ∧
    (jsStartsWith v "/" = false →
      middlewareDecide path ps SessionResult.valid = Decision.next) := by
  constructor
  · intro hsv
    have hne := startsWithSlash_ne_empty v hsv
    simp [middlewareDecide, hnr, paramsHas_eq_isSome, hv, hsv, hne]
  · intro hsv
    simp [middlewareDecide, hnr, paramsHas_eq_isSome, hv, hsv]

/-- Claim C5 witness: redirectTo=/dashboard/settings yields
Redirect("/dashboard/settings", empty query); redirectTo=https://evil.example
yields Continue. -/
theorem guard_redirect_continuation_witness :
    middlewareDecide "/" [("redirectTo", "/dashboard/settings")] SessionResult.valid =
      Decision.redirect "/dashboard/settings" [] ∧
    middlewareDecide "/" [("redirectTo", "https://evil.example")] SessionResult.valid =
      Decision.next :=
  ⟨(guard_redirect_continuation "/" [("redirectTo", "/dashboard/settings")]
      "/dashboard/settings" (by decide) (by decide)).1 (by decide),
   (guard_redirect_continuation "/" [("redirectTo", "https://evil.example")]
      "https://evil.example" (by decide) (by decide)).2 (by decide)⟩

/-- Claim C6: every path under /auth/callback with an absent session gets
decision Continue — in particular it is never redirected to /login. -/
theorem guard_callback_absent_continues (path : String) (ps : Params)
    (h : jsStartsWith path "/auth/callback" = true) :
    middlewareDecide path ps SessionResult.absent = Decision.next := by
  have ha := callback_is_auth path h
  have hd := auth_not_dashboard path ha
  simp [middlewareDecide, ha, hd]

/-- Claim C6 witness: /auth/callback?code=abc with an absent session
continues. -/
theorem guard_callback_absent_continues_witness :
    middlewareDecide "/auth/callback" [("code", "abc")] SessionResult.absent =
      Decision.next :=
  guard_callback_absent_continues "/auth/callback" [("code", "abc")] (by decide)

/-- Claim C7: an exception thrown during decision evaluation (modelled as
the Except.error channel of the session lookup, the code's only
collaborator call inside the try block) is caught by the guard, which
logs it and returns Continue; middlewareRun is a total function, so no
exception escapes and no request is dropped. -/
theorem guard_fails_open (path : String) (ps : Params) (e : String) :
    middlewareRun path ps (Except.error e) =
      (Decision.next, ["Unexpected middleware error: " ++ e]) := rfl

/-- Claim C10: every redirect the guard produces carries the incoming query
parameters over unchanged except for the keys the matched rule touches —
any key other than error and redirectTo is preserved in every redirect,
the error-rule redirect preserves redirectTo itself, and the
valid-on-auth-page redirect carries the query over verbatim. -/
theorem guard_redirect_frame (path : String) (ps : Params) (s : SessionResult)
    (tgt : String) (qs : Params)
    (h : middlewareDecide path ps s = Decision.redirect tgt qs) :
    (∀ k, k ≠ "error" → k ≠ "redirectTo" → paramsGet qs k = paramsGet ps k) ∧
    (isErrorResult s = true →
      paramsGet qs "redirectTo" = paramsGet ps "redirectTo") ∧
    (s = SessionResult.valid →
      ((jsStartsWith path "/login" || jsStartsWith path "/auth")
          && !jsStartsWith path "/auth/callback") = true → qs = ps) := by
  cases s with
  | lookupError r =>
    cases hl : jsStartsWith path "/login" with
    | true =>
      have hd := login_not_dashboard path hl
      simp [middlewareDecide, hl, hd] at h
    | false =>
      cases ha : jsStartsWith path "/auth" with
      | true =>
        have hd := auth_not_dashboard path ha
        simp [middlewareDecide, hl, ha, hd] at h
      | false =>
        simp [middlewareDecide, hl, ha] at h
        refine ⟨?_, ?_, ?_⟩
        · intro k hk1 _
          rw [← h.2]
          exact paramsGet_set_ne ps "error" "session_error" k hk1
        · intro _
          rw [← h.2]
          exact paramsGet_set_ne ps "error" "session_error" "redirectTo" (by decide)
        · intro hvalid _
          exact absurd hvalid (by simp)
  | absent =>
    cases hd : jsStartsWith path "/dashboard" with
    | false => simp [middlewareDecide, hd] at h
    | true =>
      simp [middlewareDecide, hd] at h
      refine ⟨?_, ?_, ?_⟩
      · intro k _ hk2
        rw [← h.2]
        exact paramsGet_set_ne ps "redirectTo" path k hk2
      · intro habs
        exact absurd habs (by simp [isErrorResult])
      · intro hvalid _
        exact absurd hvalid (by simp)
  | valid =>
    cases hcb : jsStartsWith path "/auth/callback" with
    | true =>
      have ha := callback_is_auth path hcb
      have hd := auth_not_dashboard path ha
      cases hg : paramsGet ps "redirectTo" with
      | none =>
        simp [middlewareDecide, ha, hcb, hd, hg, paramsHas_eq_isSome] at h
      | some v =>
        cases hsv : jsStartsWith v "/" with
        | false =>
          simp [middlewareDecide, ha, hcb, hd, hg, hsv, paramsHas_eq_isSome] at h
        | true =>
          have hne := startsWithSlash_ne_empty v hsv
          simp [middlewareDecide, ha, hcb, hd, hg, hsv, hne,
            paramsHas_eq_isSome] at h
          refine ⟨?_, ?_, ?_⟩
          · intro k _ hk2
            rw [← h.2]
            exact paramsGet_delete_ne ps "redirectTo" k hk2
          · intro herr
            exact absurd herr (by simp [isErrorResult])
          · intro _ hcond
            simp at hcond
    | false =>
      cases hl : jsStartsWith path "/login" with
      | true =>
        simp [middlewareDecide, hl, hcb] at h
        exact ⟨fun k _ _ => by rw [h.2], fun herr => absurd herr (by simp [isErrorResult]),
          fun _ _ => h.2.symm⟩
      | false =>
        cases ha : jsStartsWith path "/auth" with
        | true =>
          simp [middlewareDecide, hl, ha, hcb] at h
          exact ⟨fun k _ _ => by rw [h.2], fun herr => absurd herr (by simp [isErrorResult]),
            fun _ _ => h.2.symm⟩
        | false =>
          cases hg : paramsGet ps "redirectTo" with
          | none =>
            simp [middlewareDecide, hl, ha, hcb, hg, paramsHas_eq_isSome] at h
          | some v =>
            cases hsv : jsStartsWith v "/" with
            | false =>
              simp [middlewareDecide, hl, ha, hcb, hg, hsv, paramsHas_eq_isSome] at h
            | true =>
              have hne := startsWithSlash_ne_empty v hsv
              simp [middlewareDecide, hl, ha, hcb, hg, hsv, hne,
                paramsHas_eq_isSome] at h
              refine ⟨?_, ?_, ?_⟩
              · intro k _ hk2
                rw [← h.2]
                exact paramsGet_delete_ne ps "redirectTo" k hk2
              · intro herr
                exact absurd herr (by simp [isErrorResult])
              · intro _ hcond
                simp at hcond

/-- Claim C10 witness: the redirect for an absent session on /dashboard
preserves the unrelated theme parameter. -/
theorem guard_redirect_frame_witness :
    paramsGet [("theme", "dark"), ("redirectTo", "/dashboard")] "theme" =
      paramsGet [("theme", "dark")] "theme" :=
  (guard_redirect_frame "/dashboard" [("theme", "dark")] SessionResult.absent
      "/login" [("theme", "dark"), ("redirectTo", "/dashboard")] (by decide)).1
    "theme" (by decide) (by decide)


/-! ## The route-matcher surface (middleware config) -/

theorem chIsPrefix_iff_append (p s : List Char) :
    chIsPrefix p s = true ↔ ∃ t, s = p ++ t := by
  induction p generalizing s with
  | nil => simp [chIsPrefix]
  | cons x xs ih =>
    cases s with
    | nil => simp [chIsPrefix]
    | cons y ys =>
      simp only [chIsPrefix, Bool.and_eq_true, beq_iff_eq, ih, List.cons_append,
        List.cons.injEq]
      constructor
      · rintro ⟨rfl, t, rfl⟩
        exact ⟨t, rfl, rfl⟩
      · rintro ⟨t, rfl, rfl⟩
        exact ⟨rfl, t, rfl⟩

theorem chEndsWith_iff (s e : List Char) :
    chEndsWith s e = true ↔ ∃ a, s = a ++ e := by
  rw [chEndsWith, chIsPrefix_iff_append]
  constructor
  · rintro ⟨t, ht⟩
    refine ⟨t.reverse, ?_⟩
    have h2 := congrArg List.reverse ht
    simpa using h2
  · rintro ⟨a, rfl⟩
    exact ⟨a.reverse, by simp⟩

/-- JS regex `.` (no s flag): any character except a line terminator. -/
def notLineTerm (c : Char) : Bool :=
  c != '\n' && c != '\r' && c != ' ' && c != ' '

/-- The image extensions of the matcher pattern. -/
def imageExts : List String := ["svg", "png", "jpg", "jpeg", "gif", "webp"]

/-- The negative lookahead of the matcher regex, applied at the position
just after the leading slash: the remainder starts with _next/static or
_next/image, or matches favicon.ico as a prefix (the unescaped dot is a
wildcard), or ends with a dot and one of the image extensions. -/
def matcherExcluded (rest : List Char) : Bool :=
  chIsPrefix "_next/static".toList rest ||
  chIsPrefix "_next/image".toList rest ||
  (chIsPrefix "favicon".toList rest && chIsPrefix "ico".toList (rest.drop 8)) ||
  imageExts.any (fun e => chEndsWith rest ('.' :: e.toList))

/-- The matcher pattern of the middleware `config` as a predicate on
paths: a leading slash, then a remainder rejected by the lookahead and
consumed by `.*` (which cannot cross line terminators). -/
def matcherAdmits (p : String) : Bool :=
  match p.toList with
  | '/' :: rest => rest.all notLineTerm && !matcherExcluded rest
  | _ => false

/-- The exclusion set as the claim words it: paths under _next/static or
_next/image, the path /favicon.ico itself, and paths ending in an image
extension. -/
def claimExcluded (p : String) : Prop :=
  (∃ t, p.toList = "/_next/static".toList ++ t) ∨
  (∃ t, p.toList = "/_next/image".toList ++ t) ∨
  p = "/favicon.ico" ∨
  (∃ a e, e ∈ imageExts ∧ p.toList = a ++ ('.' :: e.toList))

/-- The exclusion set as the code's pattern has it: the favicon
alternative is a prefix match with a wildcard in place of the dot. -/
def amendedExcluded (p : String) : Prop :=
  (∃ t, p.toList = "/_next/static".toList ++ t) ∨
  (∃ t, p.toList = "/_next/image".toList ++ t) ∨
  (∃ c t, p.toList = "/favicon".toList ++ c :: ("ico".toList ++ t)) ∨
  (∃ a e, e ∈ imageExts ∧ p.toList = a ++ ('.' :: e.toList))

theorem exists_append_cons_iff (rest : List Char) (p : String)
    (hp : p.toList = '/' :: rest) (lit : List Char) :
    (∃ t, rest = lit ++ t) ↔ (∃ t, p.toList = ('/' :: lit) ++ t) := by
  constructor
  · rintro ⟨t, rfl⟩
    exact ⟨t, by rw [hp]; rfl⟩
  · rintro ⟨t, ht⟩
    rw [hp] at ht
    injection ht with _ h2
    exact ⟨t, h2⟩

theorem exists_dot_suffix_iff (rest : List Char) (p : String)
    (hp : p.toList = '/' :: rest) (e : List Char) :
    (∃ a, rest = a ++ ('.' :: e)) ↔ (∃ a, p.toList = a ++ ('.' :: e)) := by
  constructor
  · rintro ⟨a, rfl⟩
    exact ⟨'/' :: a, by rw [hp]; rfl⟩
  · rintro ⟨a, ha⟩
    rw [hp] at ha
    cases a with
    | nil =>
      injection ha with h1 _
      exact absurd h1 (by decide)
    | cons c a2 =>
      injection ha with _ h2
      exact ⟨a2, h2⟩

theorem favicon_alt_iff (rest : List Char) (p : String)
    (hp : p.toList = '/' :: rest) :
    ((chIsPrefix "favicon".toList rest
        && chIsPrefix "ico".toList (rest.drop 8)) = true) ↔
      (∃ c t, p.toList = "/favicon".toList ++ c :: ("ico".toList ++ t)) := by
  constructor
  · intro h
    rw [Bool.and_eq_true] at h
    obtain ⟨h1, h2⟩ := h
    obtain ⟨t0, ht0⟩ := (chIsPrefix_iff_append _ _).mp h1
    cases t0 with
    | nil =>
      rw [ht0] at h2
      exact absurd h2 (by decide)
    | cons c t1 =>
      have hdrop : rest.drop 8 = t1 := by rw [ht0]; rfl
      rw [hdrop] at h2
      obtain ⟨t, ht⟩ := (chIsPrefix_iff_append _ _).mp h2
      refine ⟨c, t, ?_⟩
      rw [hp, ht0, ht]
      rfl
  · rintro ⟨c, t, hE⟩
    rw [hp] at hE
    have hE2 : '/' :: rest = '/' :: ("favicon".toList ++ c :: ("ico".toList ++ t)) := hE
    injection hE2 with _ h2
    rw [Bool.and_eq_true]
    constructor
    · exact (chIsPrefix_iff_append _ _).mpr ⟨c :: ("ico".toList ++ t), h2⟩
    · rw [h2]
      have hdrop : ("favicon".toList ++ c :: ("ico".toList ++ t)).drop 8 =
          "ico".toList ++ t := rfl
      rw [hdrop]
      exact (chIsPrefix_iff_append _ _).mpr ⟨t, rfl⟩

theorem matcherExcluded_iff (p : String) (rest : List Char)
    (hp : p.toList = '/' :: rest) :
    matcherExcluded rest = true ↔ amendedExcluded p := by
  have e1 : ('/' :: "_next/static".toList) = "/_next/static".toList := rfl
  have e2 : ('/' :: "_next/image".toList) = "/_next/image".toList := rfl
  rw [matcherExcluded, amendedExcluded]
  simp only [Bool.or_eq_true]
  rw [chIsPrefix_iff_append "_next/static".toList rest,
    chIsPrefix_iff_append "_next/image".toList rest,
    exists_append_cons_iff rest p hp "_next/static".toList,
    exists_append_cons_iff rest p hp "_next/image".toList,
    e1, e2, favicon_alt_iff rest p hp, List.any_eq_true]
  constructor
  · rintro (((h | h) | h) | h)
    · exact Or.inl h
    · exact Or.inr (Or.inl h)
    · exact Or.inr (Or.inr (Or.inl h))
    · obtain ⟨e, he, hE⟩ := h
      obtain ⟨a, ha⟩ := (chEndsWith_iff _ _).mp hE
      obtain ⟨a2, ha2⟩ := (exists_dot_suffix_iff rest p hp e.toList).mp ⟨a, ha⟩
      exact Or.inr (Or.inr (Or.inr ⟨a2, e, he, ha2⟩))
  · rintro (h | h | h | h)
    · exact Or.inl (Or.inl (Or.inl h))
    · exact Or.inl (Or.inl (Or.inr h))
    · exact Or.inl (Or.inr h)
    · obtain ⟨a, e, he, hE⟩ := h
      obtain ⟨a2, ha2⟩ := (exists_dot_suffix_iff rest p hp e.toList).mpr ⟨a, hE⟩
      exact Or.inr ⟨e, he, (chEndsWith_iff _ _).mpr ⟨a2, ha2⟩⟩

/-- Claim C8 counterexample: the path /faviconXico is not in the claim's
exclusion set, yet the matcher rejects it — the unescaped dot of
favicon.ico in the pattern matches any character, so the pattern does not
admit exactly the complement of the claimed exclusion set. -/
theorem matcher_exactness_counterexample :
    jsStartsWith "/faviconXico" "/" = true ∧
    matcherAdmits "/faviconXico" = false ∧
    ¬ claimExcluded "/faviconXico" := by
  refine ⟨by decide, by decide, ?_⟩
  rintro (⟨t, ht⟩ | ⟨t, ht⟩ | h | ⟨a, e, he, hl⟩)
  · have h2 : chIsPrefix "/_next/static".toList "/faviconXico".toList = true :=
      (chIsPrefix_iff_append _ _).mpr ⟨t, ht⟩
    exact absurd h2 (by decide)
  · have h2 : chIsPrefix "/_next/image".toList "/faviconXico".toList = true :=
      (chIsPrefix_iff_append _ _).mpr ⟨t, ht⟩
    exact absurd h2 (by decide)
  · exact absurd h (by decide)
  · have h2 : chEndsWith "/faviconXico".toList ('.' :: e.toList) = true :=
      (chEndsWith_iff _ _).mpr ⟨a, hl⟩
    simp only [imageExts, List.mem_cons, List.not_mem_nil, or_false] at he
    rcases he with rfl | rfl | rfl | rfl | rfl | rfl <;> exact absurd h2 (by decide)

/-- Claim C8 (amended): the matcher admits exactly those paths that start
with a slash, contain no line terminators after it, and whose remainder
neither starts with _next/static or _next/image, nor starts with favicon
followed by any character followed by ico (the pattern's favicon.ico
alternative, dot unescaped, matched as a prefix), nor ends with a dot and
one of the image extensions. -/
theorem matcher_admits_amended (p : String) (h : jsStartsWith p "/" = true) :
    matcherAdmits p = true ↔
      ((p.toList.drop 1).all notLineTerm = true ∧ ¬ amendedExcluded p) := by
  obtain ⟨rest, hp⟩ := (chIsPrefix_iff_append _ _).mp h
  have hp2 : p.toList = '/' :: rest := hp
  rw [matcherAdmits.eq_def, hp2]
  simp only [List.drop_succ_cons, List.drop_zero]
  rw [Bool.and_eq_true, Bool.not_eq_true']
  constructor
  · rintro ⟨ha, hb⟩
    exact ⟨ha, fun hx => by
      rw [← matcherExcluded_iff p rest hp2] at hx
      rw [hx] at hb
      exact absurd hb (by decide)⟩
  · rintro ⟨ha, hb⟩
    refine ⟨ha, ?_⟩
    cases hx : matcherExcluded rest with
    | false => rfl
    | true => exact absurd ((matcherExcluded_iff p rest hp2).mp hx) hb

/-- Claim C8 witness: the amended characterisation applied at /dashboard. -/
theorem matcher_admits_amended_witness :
    matcherAdmits "/dashboard" = true ↔
      (("/dashboard".toList.drop 1).all notLineTerm = true ∧
        ¬ amendedExcluded "/dashboard") :=
  matcher_admits_amended "/dashboard" (by decide)


/-! ## The language server actions and the single-primary invariant -/

/-- One row of the `user_languages` table, with the columns the actions
in src/lib/actions/languages.js read or write (timestamp columns are
omitted; no claim concerns them). -/
structure UserLangRecord where
  id : Nat
  user_id : Nat
  language_id : Nat
  relationship_type : String
  proficiency_level : String
  learning_reason : String
  target_proficiency : String
  is_primary : Bool
  is_active : Bool
deriving DecidableEq, Repr

/-- The `user_languages` table. -/
abbrev UserLangDB := List UserLangRecord

/-- The "unset other primary languages" update of both actions:
`update({is_primary: false}).eq('user_id', uid)` — every row of the user
gets is_primary = false. -/
def unsetPrimaries : UserLangDB → Nat → UserLangDB
  | [], _ => []
  | r :: rest, uid =>
      (if r.user_id == uid then { r with is_primary := false } else r) ::
        unsetPrimaries rest uid

/-- The row update performed by `updateLanguagePreferences` on the rows
matching `id = ulid` and `user_id = uid` (the ownership check). -/
def applyPrefUpdate (ulid uid : Nat)
    (proficiencyLevel targetProficiency learningReason : String)
    (isPrimary : Bool) (r : UserLangRecord) : UserLangRecord :=
  if r.id == ulid && r.user_id == uid then
    { r with proficiency_level := proficiencyLevel,
             target_proficiency := targetProficiency,
             learning_reason := learningReason,
             is_primary := isPrimary }
  else r

/-- `selectLanguage` (src/lib/actions/languages.js): duplicate check via
`.single()` (an existing row is reported exactly when one row matches),
then the unset-primaries update when isPrimary, then the insert.  The
user_profiles upsert touches a different table and is not modelled.
Returns the resulting table and whether the action succeeded. -/
def selectLanguage (db : UserLangDB) (uid : Nat) (languageId : Option Nat)
    (relationshipType proficiencyLevel learningReason targetProficiency : String)
    (isPrimary : Bool) (newId : Nat) : UserLangDB × Bool :=
  match languageId with
  | none => (db, false)
  | some lid =>
      let existing := db.filter (fun r => r.user_id == uid && r.language_id == lid)
      if existing.length == 1 then (db, false)
      else
        let db1 := if isPrimary then unsetPrimaries db uid else db
        (db1 ++ [{ id := newId, user_id := uid, language_id := lid,
                   relationship_type := relationshipType,
                   proficiency_level := proficiencyLevel,
                   learning_reason := learningReason,
                   target_proficiency := targetProficiency,
                   is_primary := isPrimary, is_active := true }], true)

/-- `updateLanguagePreferences` (src/lib/actions/languages.js): the
unset-primaries update when isPrimary, then the ownership-checked update
of the target row; `.single()` reports an error unless exactly one row
was updated (the failed update request is rolled back, while the earlier
unset-primaries request has already been applied). -/
def updateLanguagePreferences (db : UserLangDB) (uid : Nat)
    (userLanguageId : Option Nat)
    (proficiencyLevel targetProficiency learningReason : String)
    (isPrimary : Bool) : UserLangDB × Bool :=
  match userLanguageId with
  | none => (db, false)
  | some ulid =>
      let db1 := if isPrimary then unsetPrimaries db uid else db
      let touched := db1.filter (fun r => r.id == ulid && r.user_id == uid)
      if touched.length == 1 then
        (db1.map (applyPrefUpdate ulid uid proficiencyLevel targetProficiency
          learningReason isPrimary), true)
      else (db1, false)

/-- Number of rows of a user with is_primary = true. -/
def primaryCount (db : UserLangDB) (uid : Nat) : Nat :=
  match db with
  | [] => 0
  | r :: rest =>
      (if r.user_id == uid && r.is_primary then 1 else 0) + primaryCount rest uid

/-- The invariant: each user has at most one primary user-language row. -/
def atMostOnePrimary (db : UserLangDB) : Prop :=
  ∀ uid, primaryCount db uid ≤ 1

theorem primaryCount_unsetPrimaries (db : UserLangDB) (uid u : Nat) :
    primaryCount (unsetPrimaries db uid) u =
      if u = uid then 0 else primaryCount db u := by
  induction db with
  | nil => by_cases h : u = uid <;> simp [unsetPrimaries, primaryCount, h]
  | cons r rest ih =>
    by_cases h2 : u = uid
    · subst h2
      by_cases h1 : r.user_id = u
      · simp [unsetPrimaries, primaryCount, h1, ih]
      · simp [unsetPrimaries, primaryCount, h1, ih]
    · by_cases h1 : r.user_id = uid
      · simp [unsetPrimaries, primaryCount, h1, h2, ih, Ne.symm h2]
      · simp [unsetPrimaries, primaryCount, h1, h2, ih]

theorem primaryCount_append (a b : UserLangDB) (u : Nat) :
    primaryCount (a ++ b) u = primaryCount a u + primaryCount b u := by
  induction a with
  | nil => simp [primaryCount]
  | cons r rest ih => simp [primaryCount, ih, Nat.add_assoc]

theorem primaryCount_applyPrefUpdate_other (db : UserLangDB)
    (ulid uid u : Nat) (pl tp lr : String) (isP : Bool) (hu : u ≠ uid) :
    primaryCount (db.map (applyPrefUpdate ulid uid pl tp lr isP)) u =
      primaryCount db u := by
  induction db with
  | nil => rfl
  | cons r rest ih =>
    by_cases hc : (r.id == ulid && r.user_id == uid) = true
    · have h2 : r.user_id = uid := by
        rw [Bool.and_eq_true] at hc
        exact beq_iff_eq.mp hc.2
      have h3 : r.user_id ≠ u := by rw [h2]; exact Ne.symm hu
      simp [applyPrefUpdate, hc, primaryCount, ih, h3]
    · rw [Bool.not_eq_true] at hc
      simp [applyPrefUpdate, hc, primaryCount, ih]

theorem primaryCount_applyPrefUpdate_notPrimary (db : UserLangDB)
    (ulid uid u : Nat) (pl tp lr : String) :
    primaryCount (db.map (applyPrefUpdate ulid uid pl tp lr false)) u ≤
      primaryCount db u := by
  induction db with
  | nil => exact Nat.le_refl 0
  | cons r rest ih =>
    by_cases hc : (r.id == ulid && r.user_id == uid) = true
    · simp [applyPrefUpdate, hc, primaryCount]
      omega
    · rw [Bool.not_eq_true] at hc
      simp [applyPrefUpdate, hc, primaryCount]
      omega

theorem primaryCount_applyPrefUpdate_le_matches (db : UserLangDB)
    (ulid uid : Nat) (pl tp lr : String) (isP : Bool) :
    primaryCount (db.map (applyPrefUpdate ulid uid pl tp lr isP)) uid ≤
      (db.filter (fun r => r.id == ulid && r.user_id == uid)).length +
        primaryCount db uid := by
  cases isP with
  | false =>
    calc primaryCount (db.map (applyPrefUpdate ulid uid pl tp lr false)) uid
        ≤ primaryCount db uid :=
          primaryCount_applyPrefUpdate_notPrimary db ulid uid uid pl tp lr
      _ ≤ (db.filter (fun r => r.id == ulid && r.user_id == uid)).length +
            primaryCount db uid := Nat.le_add_left _ _
  | true =>
    induction db with
    | nil => exact Nat.le_refl 0
    | cons r rest ih =>
      by_cases hc : (r.id == ulid && r.user_id == uid) = true
      · simp [applyPrefUpdate, hc, primaryCount, List.filter_cons]
        by_cases hru : r.user_id = uid
        · by_cases hbp : r.is_primary = true <;> simp [hru, hbp] <;> omega
        · simp [hru]
          omega
      · rw [Bool.not_eq_true] at hc
        simp [applyPrefUpdate, hc, primaryCount, List.filter_cons]
        omega

/-- Claim C9: the at-most-one-primary invariant is preserved by
selectLanguage and by updateLanguagePreferences — whenever either sets a
row primary it has first unset is_primary on all of the user's rows, so
afterwards every user still has at most one primary row. -/
theorem primary_invariant_preserved
    (db : UserLangDB)
    (uid : Nat) (languageId : Option Nat)
    (relationshipType proficiencyLevel learningReason targetProficiency : String)
    (isPrimary : Bool) (newId : Nat)
    (uid2 : Nat) (userLanguageId : Option Nat)
    (prof2 target2 reason2 : String) (isPrimary2 : Bool)
    (h : atMostOnePrimary db) :
    atMostOnePrimary (selectLanguage db uid languageId relationshipType
        proficiencyLevel learningReason targetProficiency isPrimary newId).1 ∧
    atMostOnePrimary (updateLanguagePreferences db uid2 userLanguageId
        prof2 target2 reason2 isPrimary2).1 := by
  constructor
  · cases languageId with
    | none => exact h
    | some lid =>
      by_cases hex : ((db.filter
          (fun r => r.user_id == uid && r.language_id == lid)).length == 1) = true
      · simp [selectLanguage, hex]
        exact h
      · rw [Bool.not_eq_true] at hex
        cases isPrimary with
        | true =>
          simp [selectLanguage, hex]
          intro u
          rw [primaryCount_append, primaryCount_unsetPrimaries]
          by_cases hu : u = uid
          · simp [hu, primaryCount]
          · simp [hu, primaryCount, Ne.symm hu]
            exact h u
        | false =>
          simp [selectLanguage, hex]
          intro u
          rw [primaryCount_append]
          simp [primaryCount]
          exact h u
  · cases userLanguageId with
    | none => exact h
    | some ulid =>
      cases isPrimary2 with
      | true =>
        by_cases htl : (((unsetPrimaries db uid2).filter
            (fun r => r.id == ulid && r.user_id == uid2)).length == 1) = true
        · simp [updateLanguagePreferences, htl]
          intro u
          by_cases hu : u = uid2
          · rw [hu]
            have hle := primaryCount_applyPrefUpdate_le_matches
              (unsetPrimaries db uid2) ulid uid2 prof2 target2 reason2 true
            have hz : primaryCount (unsetPrimaries db uid2) uid2 = 0 := by
              rw [primaryCount_unsetPrimaries]
              simp
            have hlen : ((unsetPrimaries db uid2).filter
                (fun r => r.id == ulid && r.user_id == uid2)).length = 1 :=
              beq_iff_eq.mp htl
            rw [hz, hlen] at hle
            exact hle
          · rw [primaryCount_applyPrefUpdate_other _ _ _ _ _ _ _ _ hu,
              primaryCount_unsetPrimaries]
            simp [hu]
            exact h u
        · rw [Bool.not_eq_true] at htl
          simp [updateLanguagePreferences, htl]
          intro u
          rw [primaryCount_unsetPrimaries]
          by_cases hu : u = uid2
          · simp [hu]
          · simp [hu]
            exact h u
      | false =>
        by_cases htl : ((db.filter
            (fun r => r.id == ulid && r.user_id == uid2)).length == 1) = true
        · simp [updateLanguagePreferences, htl]
          intro u
          calc primaryCount (db.map (applyPrefUpdate ulid uid2 prof2 target2
                reason2 false)) u ≤ primaryCount db u :=
              primaryCount_applyPrefUpdate_notPrimary db ulid uid2 u prof2 target2
                reason2
            _ ≤ 1 := h u
        · rw [Bool.not_eq_true] at htl
          simp [updateLanguagePreferences, htl]
          exact h

/-- Claim C9 witness: both actions applied to an empty table, setting the
new and updated row primary, leave user 1 with at most one primary row. -/
theorem primary_invariant_preserved_witness :
    primaryCount (selectLanguage [] 1 (some 5) "learning" "A1" "" "B2"
        true 10).1 1 ≤ 1 ∧
    primaryCount (updateLanguagePreferences [] 1 (some 3) "A2" "C1" ""
        true).1 1 ≤ 1 :=
  have h : atMostOnePrimary ([] : UserLangDB) := fun _ => Nat.zero_le 1
  have hmain := primary_invariant_preserved [] 1 (some 5) "learning" "A1" ""
    "B2" true 10 1 (some 3) "A2" "C1" "" true h
  ⟨hmain.1 1, hmain.2 1⟩

end Linguava
